import Mathlib

/-!
Shallow embedding of the Lyrics-Translation application (`src/app.py`).

The repository is a PySide6 GUI around three pieces of reproducible logic:
the local stub translator (`LocalTranslator.translate`), the error-string
mapping of the remote translator (`GLMTranslator.translate`'s `except`
branch), and the sequential batch-translation state machine
(`open_files`, `start_batch_translation`, `translate_next_file_in_batch`,
`handle_batch_translation_result`, `handle_batch_error`,
`batch_translation_finished`, `save_translated_file`).

GUI widgets, dialogs, progress bars and theming are presentation-only and
are not modelled; dialogs shown via `QMessageBox` are modelled as an
append-only `reports` log where a claim needs them.  File input/output and
the network call are modelled as oracle functions passed explicitly
(`Except` for fallible calls), and the wall-clock timestamp of
`datetime.now().strftime(...)` is an explicit parameter, since all three
are external to the process.  Python strings are modelled as `String`
(lists of unicode scalar values), `str.split`/`str.join` as
`List.splitOn`/`List.intercalate` on the underlying character lists, which
have the same semantics (`"".split('\n') == ['']`, every occurrence of the
separator splits, empty pieces preserved).
-/

namespace LyricsApp

/-! ### Python builtins used by the code -/

/-- Python `str.upper`, applied characterwise (`app.py` only ever feeds it
the ASCII language names of the fixed combo box). -/
def pyUpper (s : String) : String := ⟨s.data.map Char.toUpper⟩

/-- Python `str.lower`, applied characterwise. -/
def pyLower (s : String) : String := ⟨s.data.map Char.toLower⟩

/-- Does the list start with the given pattern? (helper for Python `in`). -/
def startsList : List Char → List Char → Bool
  | [], _ => true
  | _ :: _, [] => false
  | a :: as, b :: bs => a = b && startsList as bs

/-- Is `needle` a contiguous sublist of the second argument?
(helper for Python `in`). -/
def hasSub (needle : List Char) : List Char → Bool
  | [] => startsList needle []
  | c :: cs => startsList needle (c :: cs) || hasSub needle cs

/-- Python substring test `needle in hay` (case-sensitive). -/
def strContains (hay needle : String) : Bool := hasSub needle.data hay.data

/-- Index of the last occurrence of `c` in `l` (Python `str.rfind`,
`none` instead of `-1` when absent). -/
def rfindIdx (c : Char) (l : List Char) : Option Nat :=
  (l.reverse.findIdx? (· == c)).map (fun j => l.length - 1 - j)

/-- `os.path.basename` for POSIX paths: everything after the last `'/'`. -/
def pyBasename (p : String) : String :=
  match rfindIdx '/' p.data with
  | some j => ⟨p.data.drop (j + 1)⟩
  | none => p

/-- `os.path.dirname` for POSIX paths: everything before the last `'/'`,
with trailing slashes stripped unless the result is all slashes. -/
def pyDirname (p : String) : String :=
  let i : Nat := match rfindIdx '/' p.data with
    | some j => j + 1
    | none => 0
  let head := p.data.take i
  if head ≠ [] ∧ head.any (· ≠ '/') then ⟨(head.reverse.dropWhile (· == '/')).reverse⟩
  else ⟨head⟩

/-- `os.path.splitext`: split at the last `'.'` that lies after the last
`'/'`, unless every character between them is a dot (CPython
`genericpath._splitext`). -/
def pySplitext (p : String) : String × String :=
  let sepIdx : Int := match rfindIdx '/' p.data with
    | some j => (j : Int)
    | none => -1
  let dotIdx : Int := match rfindIdx '.' p.data with
    | some j => (j : Int)
    | none => -1
  if dotIdx > sepIdx ∧
      ((p.data.drop (sepIdx + 1).toNat).take (dotIdx - sepIdx - 1).toNat).any (· ≠ '.') then
    (⟨p.data.take dotIdx.toNat⟩, ⟨p.data.drop dotIdx.toNat⟩)
  else (p, "")

/-- `posixpath.join` for two components. -/
def pyJoin (a b : String) : String :=
  if b.data.head? = some '/' then b
  else if a.data = [] ∨ a.data.getLast? = some '/' then ⟨a.data ++ b.data⟩
  else ⟨a.data ++ '/' :: b.data⟩

/-! ### LocalTranslator (app.py lines 100-105) -/

/-- Python `text.split('\n')`. -/
def splitLines (s : String) : List String := (s.data.splitOn '\n').map List.asString

/-- Python `'\n'.join(lines)`. -/
def joinLines (ls : List String) : String := ⟨['\n'].intercalate (ls.map String.data)⟩

/-- The mock-translation marker `f"[{target_lang.upper()} {i + 1}] "`
prepended to line `i` (0-based). -/
def lineTag (target_lang : String) (i : Nat) : String :=
  "[" ++ pyUpper target_lang ++ " " ++ toString (i + 1) ++ "] "

/-- `LocalTranslator.translate`: split on line breaks, mark every line with
the upper-cased language and its 1-based number, rejoin. -/
def LocalTranslator.translate (text target_lang : String) : String :=
  joinLines ((splitLines text).enum.map fun p => lineTag target_lang p.1 ++ p.2)

/-! ### GLMTranslator error mapping (app.py lines 90-97) -/

/-- User-facing message for a bad API key. -/
def invalidKeyMsg : String := "Invalid API Key. Please check your API key in Settings."

/-- User-facing message for a rate-limit rejection. -/
def rateLimitMsg : String := "API Rate Limit Exceeded. Please wait and try again later."

/-- Substring the code looks for to report a bad API key. -/
def authSubstr : String := "Invalid authentication credentials"

/-- Substring the code looks for to report a rate limit. -/
def rateSubstr : String := "Rate limit exceeded"

/-- The message of the exception re-raised by `GLMTranslator.translate`
when the underlying call raised an error with text `e`. -/
def GLMTranslator.errorMessage (e : String) : String :=
  if strContains e authSubstr then invalidKeyMsg
  else if strContains e rateSubstr then rateLimitMsg
  else "API Error: " ++ e

/-! ### save_translated_file (app.py lines 317-330) -/

/-- The derived file name `f"{base}_{target_lang}_{timestamp}.lrc"` where
`base` is the stem of `original_filename`. -/
def saveName (original_filename target_lang timestamp : String) : String :=
  (pySplitext original_filename).1 ++ "_" ++ target_lang ++ "_" ++ timestamp ++ ".lrc"

/-- The path `save_translated_file` writes to:
`os.path.join(os.path.dirname(original_filename), save_filename)`. -/
def savePath (original_filename target_lang timestamp : String) : String :=
  pyJoin (pyDirname original_filename) (saveName original_filename target_lang timestamp)

/-! ### open_files (app.py lines 270-301) -/

/-- The pieces of `TranslationApp` state that `open_files` touches (list
visibility toggles are presentation-only and omitted). -/
structure AppState where
  file_paths : List String
  input_text : String
  output_text : String
deriving DecidableEq

/-- `open_files`: `sel` is what the file dialog returned, `readF` models
`open(path).read()`.  With one selected path the file is read into the
input box and `file_paths` is cleared — but the clearing statement sits
inside the `try:` block after the read, so it is skipped when the read
raises. -/
def open_files (readF : String → Except String String) (sel : List String)
    (s : AppState) : AppState :=
  if sel.length > 0 then
    let s1 : AppState := { file_paths := sel, input_text := "", output_text := "" }
    if sel.length > 1 then s1
    else if sel.length = 1 then
      match readF (sel.getD 0 "") with
      | Except.ok contents => { s1 with input_text := contents, file_paths := [] }
      | Except.error _ => s1
    else s1
  else s

/-! ### The batch sequencer (app.py lines 372-518) -/

/-- Per-item status as displayed in the file list. -/
inductive ItemStatus
  | Pending
  | Translating
  | Translated
  | Error
deriving DecidableEq

/-- External effects of one batch item: `readF` models
`open(filepath).read()`, `translateF` models `translator.translate(text,
target_lang)` (including translator construction), `writeF` models
`open(save_path, 'w').write(...)`. -/
structure Oracles where
  readF : String → Except String String
  translateF : String → String → Except String String
  writeF : String → String → Except String Unit

/-- The mutable batch bookkeeping of `TranslationApp`, plus the status
column of the file list and the log of dialogs shown. -/
structure BatchState where
  file_paths : List String
  current_file_index : Nat
  total_files : Nat
  statuses : List ItemStatus
  finished : Bool
  reports : List String
deriving DecidableEq

/-- `start_batch_translation`: store the paths, set the counters, and show
the files as pending. -/
def start_batch_translation (paths : List String) : BatchState :=
  { file_paths := paths
    current_file_index := 0
    total_files := paths.length
    statuses := paths.map fun _ => ItemStatus.Pending
    finished := false
    reports := [] }

/-- `handle_batch_error`: mark the current item `Error`, show the error
dialog, advance the cursor (the code then re-enters
`translate_next_file_in_batch`, which is the next `batchStep`). -/
def handle_batch_error (s : BatchState) (error_msg filename : String) : BatchState :=
  { s with
    statuses := s.statuses.set s.current_file_index ItemStatus.Error
    reports := s.reports ++ ["Error processing file " ++ filename ++ ":\n" ++ error_msg]
    current_file_index := s.current_file_index + 1 }

/-- `batch_translation_finished`: announce completion and reset the batch
bookkeeping. -/
def batch_translation_finished (s : BatchState) : BatchState :=
  { s with
    finished := true
    reports := s.reports ++ ["Batch translation completed!"]
    file_paths := []
    total_files := 0
    current_file_index := 0 }

/-- One iteration of the sequencer: `translate_next_file_in_batch`
together with the completion callback of the worker it starts
(`handle_batch_translation_result` on success, `handle_batch_error` on a
read or engine failure).  `langDisplay` is the combo-box text: the code
lowercases it for the engine call but uses it verbatim in the save name.
`tsF` gives the `datetime.now()` timestamp of item `i`'s save. -/
def batchStep (o : Oracles) (langDisplay : String) (tsF : Nat → String)
    (s : BatchState) : BatchState :=
  if s.current_file_index < s.total_files then
    let filepath := s.file_paths.getD s.current_file_index ""
    let filename := pyBasename filepath
    match o.readF filepath with
    | Except.error e =>
        handle_batch_error s ("Failed to open file " ++ filename ++ ":\n" ++ e) filename
    | Except.ok text =>
      match o.translateF text (pyLower langDisplay) with
      | Except.error e => handle_batch_error s e filename
      | Except.ok result =>
        let s1 := { s with
          statuses := s.statuses.set s.current_file_index ItemStatus.Translated }
        let path := savePath filename langDisplay (tsF s.current_file_index)
        let s2 := match o.writeF path result with
          | Except.ok _ => s1
          | Except.error e =>
              { s1 with reports := s1.reports ++ ["Failed to save translated file:\n" ++ e] }
        { s2 with current_file_index := s2.current_file_index + 1 }
  else batch_translation_finished s

/-- The terminal status item `i` will receive, determined by its own read
and engine outcomes alone. -/
def itemOutcome (o : Oracles) (langDisplay : String) (filepath : String) : ItemStatus :=
  match o.readF filepath with
  | Except.error _ => ItemStatus.Error
  | Except.ok text =>
    match o.translateF text (pyLower langDisplay) with
    | Except.error _ => ItemStatus.Error
    | Except.ok _ => ItemStatus.Translated

/-- Iterate the sequencer `n` times. -/
def runSteps (o : Oracles) (langDisplay : String) (tsF : Nat → String) :
    Nat → BatchState → BatchState
  | 0, s => s
  | n + 1, s => runSteps o langDisplay tsF n (batchStep o langDisplay tsF s)

/-- A whole batch run: initialization followed by one step per file (the
step after those is the finishing transition). -/
def runBatch (o : Oracles) (langDisplay : String) (tsF : Nat → String)
    (paths : List String) : BatchState :=
  runSteps o langDisplay tsF paths.length (start_batch_translation paths)

end LyricsApp

namespace LyricsApp

/-! ### Supporting lemmas: characters and digits -/

theorem toNat_ofNatAux (n : Nat) (h : n.isValidChar) : (Char.ofNatAux n h).toNat = n := rfl

theorem toNat_ofNat_valid {n : Nat} (h : n.isValidChar) : (Char.ofNat n).toNat = n := by
  unfold Char.ofNat
  rw [dif_pos h]
  exact toNat_ofNatAux n h

theorem toUpper_ne_newline {c : Char} (hc : c ≠ '\n') : Char.toUpper c ≠ '\n' := by
  intro h
  have h' : (if c.toNat ≥ 97 ∧ c.toNat ≤ 122 then Char.ofNat (c.toNat - 32) else c) = '\n' := h
  by_cases hcond : c.toNat ≥ 97 ∧ c.toNat ≤ 122
  · rw [if_pos hcond] at h'
    have hv : (Char.toNat c - 32).isValidChar := Or.inl (by omega)
    have h2 := congrArg Char.toNat h'
    rw [toNat_ofNat_valid hv] at h2
    have h3 : Char.toNat '\n' = 10 := rfl
    omega
  · rw [if_neg hcond] at h'
    exact hc h'

theorem pyUpper_no_newline {L : String} (hL : '\n' ∉ L.data) : '\n' ∉ (pyUpper L).data := by
  intro h
  rcases List.mem_map.1 h with ⟨c, hc, hceq⟩
  exact toUpper_ne_newline (fun hcn => hL (hcn ▸ hc)) hceq

theorem digitChar_ne_newline {m : Nat} (h : m < 10) : Nat.digitChar m ≠ '\n' := by
  have hall : ∀ k, k < 10 → Nat.digitChar k ≠ '\n' := by decide
  exact hall m h

theorem toDigitsCore_ne_newline :
    ∀ (fuel n : Nat) (ds : List Char), (∀ c ∈ ds, c ≠ '\n') →
      ∀ c ∈ Nat.toDigitsCore 10 fuel n ds, c ≠ '\n' := by
  intro fuel
  induction fuel with
  | zero =>
    intro n ds h c hc
    exact h c hc
  | succ f ih =>
    intro n ds h c hc
    rw [Nat.toDigitsCore] at hc
    by_cases h0 : n / 10 = 0
    · rw [if_pos h0] at hc
      rcases List.mem_cons.1 hc with hc1 | hmem
      · exact hc1 ▸ digitChar_ne_newline (Nat.mod_lt _ (by norm_num))
      · exact h c hmem
    · rw [if_neg h0] at hc
      refine ih (n / 10) (Nat.digitChar (n % 10) :: ds) ?_ c hc
      intro c' hc'
      rcases List.mem_cons.1 hc' with hc1 | hmem
      · exact hc1 ▸ digitChar_ne_newline (Nat.mod_lt _ (by norm_num))
      · exact h c' hmem

theorem natToString_ne_newline (n : Nat) : ∀ c ∈ (toString n).data, c ≠ '\n' := by
  have h : (toString n).data = Nat.toDigitsCore 10 (n + 1) n [] := rfl
  rw [h]
  exact toDigitsCore_ne_newline (n + 1) n [] (by intro c hc; cases hc)

end LyricsApp

namespace LyricsApp

/-! ### Supporting lemmas: line splitting and joining -/

theorem splitOnP_no_sep {α : Type} (p : α → Bool) :
    ∀ (xs : List α), ∀ l ∈ xs.splitOnP p, ∀ c ∈ l, p c = false := by
  intro xs
  induction xs with
  | nil =>
    intro l hl c hc
    rw [List.splitOnP_nil] at hl
    rcases List.mem_singleton.1 hl with rfl
    cases hc
  | cons a as ih =>
    intro l hl c hc
    rw [List.splitOnP_cons] at hl
    by_cases hpa : p a = true
    · rw [if_pos hpa] at hl
      rcases List.mem_cons.1 hl with rfl | hl2
      · cases hc
      · exact ih l hl2 c hc
    · rw [if_neg hpa] at hl
      rcases hsplit : as.splitOnP p with _ | ⟨hd, tl⟩
      · exact absurd hsplit (List.splitOnP_ne_nil p as)
      · rw [hsplit] at hl
        simp only [List.modifyHead] at hl
        rcases List.mem_cons.1 hl with rfl | hl2
        · rcases List.mem_cons.1 hc with rfl | hc2
          · simpa using hpa
          · exact ih hd (hsplit ▸ List.mem_cons_self hd tl) c hc2
        · exact ih l (hsplit ▸ List.mem_cons_of_mem hd hl2) c hc

theorem splitLines_no_newline (s : String) : ∀ l ∈ splitLines s, '\n' ∉ l.data := by
  intro l hl
  rcases List.mem_map.1 hl with ⟨ld, hld, rfl⟩
  intro hmem
  have hmem' : '\n' ∈ ld := hmem
  have := splitOnP_no_sep (· == '\n') s.data ld hld '\n' hmem'
  simp at this

theorem splitLines_ne_nil (s : String) : splitLines s ≠ [] := by
  intro h
  rcases List.map_eq_nil_iff.1 h with h2
  exact List.splitOnP_ne_nil (· == '\n') s.data h2

theorem splitLines_joinLines (ls : List String) (h : ∀ l ∈ ls, '\n' ∉ l.data)
    (hne : ls ≠ []) : splitLines (joinLines ls) = ls := by
  have hx : ∀ l ∈ ls.map String.data, '\n' ∉ l := by
    intro l hl
    rcases List.mem_map.1 hl with ⟨t, ht, rfl⟩
    exact h t ht
  have hne' : ls.map String.data ≠ [] := by simpa using hne
  have key := List.splitOn_intercalate (ls.map String.data) '\n' hx hne'
  show (List.splitOn '\n' (joinLines ls).data).map List.asString = ls
  rw [show (joinLines ls).data = ['\n'].intercalate (ls.map String.data) from rfl, key,
    List.map_map]
  have hid : (List.asString ∘ String.data) = id := funext fun s => rfl
  rw [hid, List.map_id]

theorem joinLines_splitLines (s : String) : joinLines (splitLines s) = s := by
  show (⟨['\n'].intercalate (((List.splitOn '\n' s.data).map List.asString).map String.data)⟩ : String) = s
  rw [List.map_map]
  have hid : (String.data ∘ List.asString) = id := funext fun l => rfl
  rw [hid, List.map_id, List.intercalate_splitOn]

end LyricsApp

namespace LyricsApp

/-! ### Supporting lemmas: lengths -/

theorem intercalate_cons₂ {α : Type} (x : α) (a b : List α) (tl : List (List α)) :
    [x].intercalate (a :: b :: tl) = a ++ [x] ++ [x].intercalate (b :: tl) := by
  simp [List.intercalate, List.intersperse_cons_cons, List.append_assoc]

theorem length_intercalate_singleton {α : Type} (x : α) :
    ∀ ls : List (List α), ls ≠ [] →
      ([x].intercalate ls).length + 1 = (ls.map List.length).sum + ls.length := by
  intro ls
  induction ls with
  | nil => intro h; exact absurd rfl h
  | cons a tl ih =>
    intro _
    cases tl with
    | nil => simp [List.intercalate]
    | cons b tl2 =>
      have h2 := ih (by simp)
      rw [intercalate_cons₂, List.length_append, List.length_append]
      simp only [List.map_cons, List.sum_cons, List.length_cons, List.length_nil] at h2 ⊢
      omega

theorem joinLines_length (ls : List String) (hne : ls ≠ []) :
    (joinLines ls).length + 1 = (ls.map String.length).sum + ls.length := by
  have h := length_intercalate_singleton '\n' (ls.map String.data) (by simpa using hne)
  show (['\n'].intercalate (ls.map String.data)).length + 1 = _
  rw [h, List.map_map, List.length_map]
  rfl

theorem lineTag_length_pos (L : String) (i : Nat) : 1 ≤ (lineTag L i).length := by
  have h1 : "[".length = 1 := rfl
  simp only [lineTag, String.length_append]
  omega

theorem lineTag_no_newline {L : String} (hL : '\n' ∉ L.data) (i : Nat) :
    '\n' ∉ (lineTag L i).data := by
  intro h
  simp only [lineTag, String.data_append, List.mem_append] at h
  rcases h with (((h | h) | h) | h) | h
  · exact absurd h (by decide)
  · exact pyUpper_no_newline hL h
  · exact absurd h (by decide)
  · exact natToString_ne_newline (i + 1) '\n' h rfl
  · exact absurd h (by decide)

end LyricsApp

namespace LyricsApp

theorem snd_mem_of_mem_enum {α : Type} {p : Nat × α} {l : List α} (h : p ∈ l.enum) :
    p.2 ∈ l := by
  obtain ⟨i, x⟩ := p
  have h2 : (i, x) ∈ List.enumFrom 0 l := h
  obtain ⟨-, hlt, hx⟩ := List.mem_enumFrom h2
  rw [hx]
  exact List.getElem_mem _

theorem tagged_lines_ne_nil (T L : String) :
    (splitLines T).enum.map (fun p => lineTag L p.1 ++ p.2) ≠ [] := by
  apply List.ne_nil_of_length_pos
  rw [List.length_map, List.enum_length]
  exact List.length_pos.2 (splitLines_ne_nil T)

theorem splitLines_translate (T L : String) (hL : '\n' ∉ L.data) :
    splitLines (LocalTranslator.translate T L)
      = (splitLines T).enum.map (fun p => lineTag L p.1 ++ p.2) := by
  unfold LocalTranslator.translate
  apply splitLines_joinLines
  · intro l hl
    rcases List.mem_map.1 hl with ⟨p, hp, rfl⟩
    intro hmem
    rw [String.data_append] at hmem
    rcases List.mem_append.1 hmem with hmem | hmem
    · exact lineTag_no_newline hL p.1 hmem
    · exact splitLines_no_newline T p.2 (snd_mem_of_mem_enum hp) hmem
  · exact tagged_lines_ne_nil T L

end LyricsApp

namespace LyricsApp

theorem sum_tagged_lines (L : String) :
    ∀ (l : List String) (k : Nat),
      (l.map String.length).sum + l.length
        ≤ ((List.enumFrom k l).map (fun p => (lineTag L p.1 ++ p.2).length)).sum := by
  intro l
  induction l with
  | nil => intro k; simp
  | cons a tl ih =>
    intro k
    rw [List.enumFrom_cons]
    have h1 := lineTag_length_pos L k
    have h2 := ih (k + 1)
    simp only [List.map_cons, List.sum_cons, List.length_cons, String.length_append] at h2 ⊢
    omega

theorem translate_longer (s L : String) :
    s.length < (LocalTranslator.translate s L).length := by
  have hsplit := joinLines_length (splitLines s) (splitLines_ne_nil s)
  rw [joinLines_splitLines] at hsplit
  have hout : (LocalTranslator.translate s L).length + 1
      = (((splitLines s).enum.map (fun p => lineTag L p.1 ++ p.2)).map String.length).sum
        + (splitLines s).length := by
    unfold LocalTranslator.translate
    rw [joinLines_length _ (tagged_lines_ne_nil s L), List.length_map, List.enum_length]
  rw [List.map_map] at hout
  have hcomp : (String.length ∘ fun p : Nat × String => lineTag L p.1 ++ p.2)
      = fun p : Nat × String => (lineTag L p.1 ++ p.2).length := rfl
  rw [hcomp] at hout
  have hsum : ((splitLines s).map String.length).sum + (splitLines s).length
      ≤ ((List.enumFrom 0 (splitLines s)).map
          (fun p => (lineTag L p.1 ++ p.2).length)).sum := sum_tagged_lines L (splitLines s) 0
  have henum : (splitLines s).enum = List.enumFrom 0 (splitLines s) := rfl
  rw [henum] at hout
  have hpos : 0 < (splitLines s).length := List.length_pos.2 (splitLines_ne_nil s)
  omega

end LyricsApp

namespace LyricsApp

/-! ### Claim C3: line structure of the local stub output -/

/-- C3 (amended): for every non-empty input `T` and every target-language
string `L` that contains no line break, the local stub's output splits into
exactly as many lines as `T`, and line `i` is the bracket marker with the
upper-cased language name and the 1-based number `i + 1` followed by the
original line `i`. -/
theorem local_translate_line_structure (T L : String) (_hT : T ≠ "")
    (hL : '\n' ∉ L.data) :
    splitLines (LocalTranslator.translate T L)
        = (splitLines T).enum.map (fun p => lineTag L p.1 ++ p.2) ∧
    (splitLines (LocalTranslator.translate T L)).length = (splitLines T).length := by
  have key := splitLines_translate T L hL
  refine ⟨key, ?_⟩
  rw [key, List.length_map, List.enum_length]

/-- C3 witness: the amended theorem applied at a concrete two-line text. -/
theorem local_translate_line_structure_witness :
    splitLines (LocalTranslator.translate "hello\nworld" "french")
        = (splitLines "hello\nworld").enum.map (fun p => lineTag "french" p.1 ++ p.2) ∧
    (splitLines (LocalTranslator.translate "hello\nworld" "french")).length
        = (splitLines "hello\nworld").length :=
  local_translate_line_structure "hello\nworld" "french" (by decide) (by decide)

/-- C3 counterexample: for the target-language string "a\nb" (which
contains a line break) the output of the local stub on the one-line text
"x" has two lines, not one, so the claim fails for arbitrary language
strings. -/
theorem local_translate_line_structure_counterexample :
    (splitLines (LocalTranslator.translate "x" "a\nb")).length
        ≠ (splitLines "x").length := by decide

/-! ### Claim C9: the local stub is not idempotent -/

theorem enumFrom_enumFrom {α : Type} :
    ∀ (l : List α) (k : Nat),
      List.enumFrom k (List.enumFrom k l)
        = (List.enumFrom k l).map (fun p => (p.1, p)) := by
  intro l
  induction l with
  | nil => intro k; rfl
  | cons a tl ih =>
    intro k
    simp only [List.enumFrom_cons, List.map_cons]
    rw [ih (k + 1)]

theorem splitLines_translate_twice (T L : String) (hL : '\n' ∉ L.data) :
    splitLines (LocalTranslator.translate (LocalTranslator.translate T L) L)
      = (splitLines T).enum.map (fun p => lineTag L p.1 ++ (lineTag L p.1 ++ p.2)) := by
  rw [splitLines_translate (LocalTranslator.translate T L) L hL,
    splitLines_translate T L hL, List.enum_map, List.map_map]
  have h2 : (splitLines T).enum.enum = (splitLines T).enum.map (fun p => (p.1, p)) :=
    enumFrom_enumFrom (splitLines T) 0
  rw [h2, List.map_map]
  rfl

/-- C9 (amended): for every text `T` and target language `L`, applying the
local stub twice is not idempotent: the doubly-translated text differs
from (and is strictly longer than) the singly-translated text; and for
every `L` containing no line break, the second pass marks every line of
the first pass's output again, so line `i` of the doubly-translated text
carries two accumulated bracket markers: the marker for line `i` twice,
followed by the original content of line `i`. -/
theorem local_translate_double_tagging (T L : String) :
    LocalTranslator.translate (LocalTranslator.translate T L) L
        ≠ LocalTranslator.translate T L ∧
    (LocalTranslator.translate T L).length
        < (LocalTranslator.translate (LocalTranslator.translate T L) L).length ∧
    ('\n' ∉ L.data →
      splitLines (LocalTranslator.translate (LocalTranslator.translate T L) L)
        = (splitLines T).enum.map (fun p => lineTag L p.1 ++ (lineTag L p.1 ++ p.2))) := by
  refine ⟨?_, translate_longer (LocalTranslator.translate T L) L,
    fun hL => splitLines_translate_twice T L hL⟩
  intro h
  have hlen := translate_longer (LocalTranslator.translate T L) L
  rw [h] at hlen
  exact lt_irrefl _ hlen

/-- C9 witness: the amended theorem at a concrete two-line text and a
newline-free language, all three conclusions instantiated. -/
theorem local_translate_double_tagging_witness :
    LocalTranslator.translate (LocalTranslator.translate "hi\nyo" "german") "german"
        ≠ LocalTranslator.translate "hi\nyo" "german" ∧
    (LocalTranslator.translate "hi\nyo" "german").length
        < (LocalTranslator.translate (LocalTranslator.translate "hi\nyo" "german")
            "german").length ∧
    splitLines (LocalTranslator.translate (LocalTranslator.translate "hi\nyo" "german")
        "german")
        = (splitLines "hi\nyo").enum.map
            (fun p => lineTag "german" p.1 ++ (lineTag "german" p.1 ++ p.2)) :=
  ⟨(local_translate_double_tagging "hi\nyo" "german").1,
    (local_translate_double_tagging "hi\nyo" "german").2.1,
    (local_translate_double_tagging "hi\nyo" "german").2.2 (by decide)⟩

/-- C9 counterexample: for the target-language string "a\nb" the first
line of the doubly-translated text is "[A", which carries no bracket
marker at all, and the lines of the doubly-translated text are not the
first pass's lines each marked once more — so the per-line
two-accumulated-markers conclusion fails for arbitrary language strings. -/
theorem local_translate_double_tagging_counterexample :
    (splitLines (LocalTranslator.translate (LocalTranslator.translate "x" "a\nb")
        "a\nb")).getD 0 "" = "[A" ∧
    splitLines (LocalTranslator.translate (LocalTranslator.translate "x" "a\nb") "a\nb")
      ≠ (splitLines (LocalTranslator.translate "x" "a\nb")).enum.map
          (fun p => lineTag "a\nb" p.1 ++ p.2) := by decide

/-! ### Claim C10: the local stub on the empty input -/

/-- C10: on the empty input the local stub does not return the empty
string: it returns exactly the bracket marker with line number 1 followed
by a space. -/
theorem local_translate_empty_input (L : String) :
    LocalTranslator.translate "" L = "[" ++ pyUpper L ++ " 1] " ∧
    LocalTranslator.translate "" L ≠ "" := by
  constructor
  · show joinLines [lineTag L 0 ++ ""] = _
    rw [String.append_empty]
    show (⟨['\n'].intercalate [(lineTag L 0).data]⟩ : String) = _
    rw [show ['\n'].intercalate [(lineTag L 0).data] = (lineTag L 0).data by
      simp [List.intercalate]]
    show lineTag L 0 = _
    unfold lineTag
    rw [String.append_assoc, String.append_assoc, String.append_assoc,
      show (" " ++ (toString (0 + 1) ++ "] ") : String) = " 1] " from rfl,
      ← String.append_assoc]
  · intro h
    have hlen := translate_longer "" L
    rw [h] at hlen
    exact lt_irrefl _ hlen

end LyricsApp

namespace LyricsApp

/-! ### Claim C5: GLM error-string mapping -/

theorem take5_data_append (a b : String) (h : 5 ≤ a.data.length) :
    ((a ++ b).data).take 5 = a.data.take 5 := by
  rw [String.data_append]
  exact List.take_append_of_le_length h

theorem apiError_ne_invalidKey (e : String) : "API Error: " ++ e ≠ invalidKeyMsg := by
  intro h
  have h5 : (("API Error: " ++ e).data).take 5 = invalidKeyMsg.data.take 5 := by rw [h]
  rw [take5_data_append _ _ (by decide)] at h5
  exact absurd h5 (by decide)

theorem apiError_ne_rateLimit (e : String) : "API Error: " ++ e ≠ rateLimitMsg := by
  intro h
  have h5 : (("API Error: " ++ e).data).take 5 = rateLimitMsg.data.take 5 := by rw [h]
  rw [take5_data_append _ _ (by decide)] at h5
  exact absurd h5 (by decide)

/-- C5 (amended): the substrings the code matches are the capitalized
`"Invalid authentication credentials"` and `"Rate limit exceeded"`
(Python's `in` is case-sensitive): an error text containing the former
maps to the invalid-key message, one containing the latter (but not the
former) maps to the rate-limit message, and any other error text maps to
itself with the `"API Error: "` tag in front. -/
theorem glm_error_mapping (e : String) :
    (GLMTranslator.errorMessage e = invalidKeyMsg ↔ strContains e authSubstr = true) ∧
    (GLMTranslator.errorMessage e = rateLimitMsg ↔
      (strContains e authSubstr = false ∧ strContains e rateSubstr = true)) ∧
    (strContains e authSubstr = false → strContains e rateSubstr = false →
      GLMTranslator.errorMessage e = "API Error: " ++ e) := by
  unfold GLMTranslator.errorMessage
  by_cases h1 : strContains e authSubstr = true
  · rw [if_pos h1]
    refine ⟨by simp [h1], ⟨fun h => absurd h (by decide), ?_⟩, ?_⟩
    · rintro ⟨ha, -⟩
      rw [h1] at ha
      cases ha
    · intro ha _
      rw [h1] at ha
      cases ha
  · have h1f : strContains e authSubstr = false := by simpa using h1
    rw [if_neg h1]
    by_cases h2 : strContains e rateSubstr = true
    · rw [if_pos h2]
      refine ⟨⟨fun h => absurd h (by decide), fun hc => absurd hc (by simp [h1f])⟩,
        by simp [h1f, h2], ?_⟩
      intro _ hb
      rw [h2] at hb
      cases hb
    · have h2f : strContains e rateSubstr = false := by simpa using h2
      rw [if_neg h2]
      refine ⟨⟨fun h => absurd h (apiError_ne_invalidKey e), ?_⟩,
        ⟨fun h => absurd h (apiError_ne_rateLimit e), ?_⟩, fun _ _ => rfl⟩
      · intro hc
        rw [hc] at h1f
        cases h1f
      · rintro ⟨-, hb⟩
        rw [hb] at h2f
        cases h2f

/-- C5 witness: the mapping theorem applied to a concrete rate-limit error
text. -/
theorem glm_error_mapping_witness :
    (GLMTranslator.errorMessage "Rate limit exceeded today" = invalidKeyMsg ↔
      strContains "Rate limit exceeded today" authSubstr = true) ∧
    (GLMTranslator.errorMessage "Rate limit exceeded today" = rateLimitMsg ↔
      (strContains "Rate limit exceeded today" authSubstr = false ∧
        strContains "Rate limit exceeded today" rateSubstr = true)) ∧
    (strContains "Rate limit exceeded today" authSubstr = false →
      strContains "Rate limit exceeded today" rateSubstr = false →
      GLMTranslator.errorMessage "Rate limit exceeded today"
        = "API Error: " ++ "Rate limit exceeded today") :=
  glm_error_mapping "Rate limit exceeded today"

/-- C5 counterexample: the lower-case substring quoted by the claim is
contained in the error text, yet the code does not map it to the
invalid-key message (the code matches the capitalized substring only). -/
theorem glm_error_mapping_counterexample :
    strContains "invalid authentication credentials"
        "invalid authentication credentials" = true ∧
    GLMTranslator.errorMessage "invalid authentication credentials"
        = "API Error: " ++ "invalid authentication credentials" ∧
    GLMTranslator.errorMessage "invalid authentication credentials" ≠ invalidKeyMsg := by
  decide

end LyricsApp

namespace LyricsApp

theorem batchStep_item (o : Oracles) (lang : String) (tsF : Nat → String) (s : BatchState)
    (h : s.current_file_index < s.total_files) :
    (batchStep o lang tsF s).current_file_index = s.current_file_index + 1 ∧
    (batchStep o lang tsF s).statuses
      = s.statuses.set s.current_file_index
          (itemOutcome o lang (s.file_paths.getD s.current_file_index "")) ∧
    (batchStep o lang tsF s).file_paths = s.file_paths ∧
    (batchStep o lang tsF s).total_files = s.total_files ∧
    (batchStep o lang tsF s).finished = s.finished := by
  simp only [batchStep, if_pos h]
  generalize s.file_paths.getD s.current_file_index "" = fp
  split
  · rename_i e heq
    simp [handle_batch_error, itemOutcome, heq]
  · rename_i text heq
    split
    · rename_i e2 heq2
      simp [handle_batch_error, itemOutcome, heq, heq2]
    · rename_i result heq2
      split <;> simp [itemOutcome, heq, heq2]

theorem take_succ_set {α : Type} (l : List α) (n : Nat) (v : α) (h : n < l.length) :
    (l.set n v).take (n + 1) = l.take n ++ [v] := by
  rw [List.set_eq_take_append_cons_drop, if_pos h]
  have hlen : (l.take n).length = n := List.length_take_of_le (Nat.le_of_lt h)
  rw [show n + 1 = (l.take n).length + 1 by rw [hlen], List.take_append]
  simp

theorem runSteps_succ (o : Oracles) (lang : String) (tsF : Nat → String) (n : Nat)
    (s : BatchState) :
    runSteps o lang tsF (n + 1) s = runSteps o lang tsF n (batchStep o lang tsF s) := rfl

theorem runSteps_done (o : Oracles) (lang : String) (tsF : Nat → String) :
    ∀ (rest : List String) (s : BatchState),
      s.total_files = s.file_paths.length →
      s.statuses.length = s.total_files →
      s.current_file_index + rest.length = s.total_files →
      rest = s.file_paths.drop s.current_file_index →
      (runSteps o lang tsF rest.length s).current_file_index = s.total_files ∧
      (runSteps o lang tsF rest.length s).total_files = s.total_files ∧
      (runSteps o lang tsF rest.length s).file_paths = s.file_paths ∧
      (runSteps o lang tsF rest.length s).finished = s.finished ∧
      (runSteps o lang tsF rest.length s).statuses
        = s.statuses.take s.current_file_index ++ rest.map (itemOutcome o lang) := by
  intro rest
  induction rest with
  | nil =>
    intro s h1 h2 h3 h4
    simp only [List.length_nil] at h3
    show s.current_file_index = s.total_files ∧ s.total_files = s.total_files ∧
      s.file_paths = s.file_paths ∧ s.finished = s.finished ∧
      s.statuses = s.statuses.take s.current_file_index
        ++ ([] : List String).map (itemOutcome o lang)
    refine ⟨by omega, rfl, rfl, rfl, ?_⟩
    rw [List.map_nil, List.append_nil]
    have hcl : s.current_file_index = s.statuses.length := by omega
    rw [hcl, List.take_length]
  | cons p rest ih =>
    intro s h1 h2 h3 h4
    simp only [List.length_cons] at h3
    have hlt : s.current_file_index < s.total_files := by omega
    obtain ⟨hc, hst, hfp, htot, hfin⟩ := batchStep_item o lang tsF s hlt
    have hp : s.file_paths.getD s.current_file_index "" = p := by
      have hh : (s.file_paths.drop s.current_file_index).head? = some p := by
        rw [← h4]; rfl
      rw [List.head?_drop] at hh
      rw [List.getD_eq_getElem?_getD, hh]
      rfl
    have hdrop : rest = s.file_paths.drop (s.current_file_index + 1) := by
      rw [← List.tail_drop, ← h4]
      simp
    rw [show (p :: rest).length = rest.length + 1 from rfl, runSteps_succ]
    have ihall := ih (batchStep o lang tsF s)
      (by rw [htot, hfp, h1])
      (by rw [hst, List.length_set, htot]; exact h2)
      (by rw [hc, htot]; omega)
      (by rw [hc, hfp]; exact hdrop)
    obtain ⟨ih1, ih2t, ih3, ih4, ih5⟩ := ihall
    refine ⟨by rw [ih1, htot], by rw [ih2t, htot], by rw [ih3, hfp], by rw [ih4, hfin], ?_⟩
    rw [ih5, hst, hc, hp]
    have hsl : s.current_file_index < s.statuses.length := by omega
    rw [take_succ_set _ _ _ hsl]
    simp [List.append_assoc]

end LyricsApp

namespace LyricsApp

theorem runBatch_spec (o : Oracles) (lang : String) (tsF : Nat → String)
    (paths : List String) :
    (runBatch o lang tsF paths).current_file_index = paths.length ∧
    (runBatch o lang tsF paths).total_files = paths.length ∧
    (runBatch o lang tsF paths).finished = false ∧
    (runBatch o lang tsF paths).statuses = paths.map (itemOutcome o lang) := by
  have h := runSteps_done o lang tsF paths (start_batch_translation paths)
    (by simp [start_batch_translation])
    (by simp [start_batch_translation])
    (by simp [start_batch_translation])
    (by simp [start_batch_translation])
  obtain ⟨h1, h2, h3, h4, h5⟩ := h
  refine ⟨h1, h2, h4, ?_⟩
  show (runSteps o lang tsF paths.length (start_batch_translation paths)).statuses = _
  rw [h5]
  simp [start_batch_translation]

theorem statuses_getD_of_runBatch (o : Oracles) (lang : String) (tsF : Nat → String)
    (paths : List String) (j : Nat) (hj : j < paths.length) :
    (runBatch o lang tsF paths).statuses.getD j ItemStatus.Pending
      = itemOutcome o lang (paths.getD j "") := by
  obtain ⟨-, -, -, h4⟩ := runBatch_spec o lang tsF paths
  rw [h4, List.getD_eq_getElem?_getD, List.getElem?_map,
    List.getD_eq_getElem?_getD, List.getElem?_eq_getElem hj]
  rfl

end LyricsApp

namespace LyricsApp

/-! Concrete oracles and timestamps used by witnesses and counterexamples. -/

def tsConst : Nat → String := fun _ => "20250101_000000"

def okOracles : Oracles :=
  { readF := fun _ => Except.ok "la la la"
    translateF := fun t _ => Except.ok t
    writeF := fun _ _ => Except.ok () }

def mixedOracles : Oracles :=
  { readF := fun p => if p = "bad.txt" then Except.error "boom" else Except.ok "text"
    translateF := fun t _ => Except.ok t
    writeF := fun _ _ => Except.ok () }

def badWriteOracles : Oracles :=
  { readF := fun _ => Except.ok "text"
    translateF := fun t _ => Except.ok t
    writeF := fun _ _ => Except.error "disk full" }

def cwdWriteOracles : Oracles :=
  { readF := fun _ => Except.ok "la la la"
    translateF := fun t _ => Except.ok t
    writeF := fun path _ =>
      if path = "song_Chinese_20250101_000000.lrc" then Except.ok ()
      else Except.error "unexpected path" }

/-- C4: in a batch over `paths`, if item `k`'s own read/engine outcome is a
failure, then after the whole run item `k` is marked `Error`, the cursor
still reaches `paths.length`, and every item's final status is determined
by its own outcome alone — no later item is skipped and the batch is not
aborted. -/
theorem batch_fail_forward (o : Oracles) (lang : String) (tsF : Nat → String)
    (paths : List String) (k : Nat) (hk : k < paths.length)
    (hfail : itemOutcome o lang (paths.getD k "") = ItemStatus.Error) :
    (runBatch o lang tsF paths).statuses.getD k ItemStatus.Pending = ItemStatus.Error ∧
    (runBatch o lang tsF paths).current_file_index = paths.length ∧
    (∀ j, j < paths.length →
      (runBatch o lang tsF paths).statuses.getD j ItemStatus.Pending
        = itemOutcome o lang (paths.getD j "")) := by
  refine ⟨(statuses_getD_of_runBatch o lang tsF paths k hk).trans hfail,
    (runBatch_spec o lang tsF paths).1, fun j hj => statuses_getD_of_runBatch o lang tsF paths j hj⟩

/-- C4 witness: a two-file batch whose first file fails to read. -/
theorem batch_fail_forward_witness :
    (runBatch mixedOracles "Chinese" tsConst ["bad.txt", "good.txt"]).statuses.getD 0
        ItemStatus.Pending = ItemStatus.Error ∧
    (runBatch mixedOracles "Chinese" tsConst
        ["bad.txt", "good.txt"]).current_file_index = 2 ∧
    (∀ j, j < 2 →
      (runBatch mixedOracles "Chinese" tsConst ["bad.txt", "good.txt"]).statuses.getD j
          ItemStatus.Pending
        = itemOutcome mixedOracles "Chinese" ((["bad.txt", "good.txt"] : List String).getD j "")) :=
  batch_fail_forward mixedOracles "Chinese" tsConst ["bad.txt", "good.txt"] 0
    (by decide) (by decide)

/-- C6: on an empty batch, a single sequencer step transitions directly to
Finished: no per-item status exists or changes, the cursor stays 0, and the
only dialog is the completion message. -/
theorem empty_batch_finishes (o : Oracles) (lang : String) (tsF : Nat → String) :
    (batchStep o lang tsF (start_batch_translation [])).finished = true ∧
    (batchStep o lang tsF (start_batch_translation [])).statuses = [] ∧
    (batchStep o lang tsF (start_batch_translation [])).current_file_index = 0 ∧
    (batchStep o lang tsF (start_batch_translation [])).reports
      = ["Batch translation completed!"] := by
  refine ⟨rfl, rfl, rfl, rfl⟩

/-- C7: when the engine call succeeds but the file write fails, the item's
status is still set to `Translated` (not reverted), the write failure is
reported, and the cursor advances to the next item. -/
theorem write_failure_keeps_translated (o : Oracles) (lang : String) (tsF : Nat → String)
    (s : BatchState) (text result e : String)
    (h : s.current_file_index < s.total_files)
    (hread : o.readF (s.file_paths.getD s.current_file_index "") = Except.ok text)
    (htr : o.translateF text (pyLower lang) = Except.ok result)
    (hw : o.writeF (savePath (pyBasename (s.file_paths.getD s.current_file_index "")) lang
        (tsF s.current_file_index)) result = Except.error e) :
    (batchStep o lang tsF s).statuses
        = s.statuses.set s.current_file_index ItemStatus.Translated ∧
    (batchStep o lang tsF s).reports
        = s.reports ++ ["Failed to save translated file:\n" ++ e] ∧
    (batchStep o lang tsF s).current_file_index = s.current_file_index + 1 := by
  simp only [batchStep, if_pos h]
  split
  · rename_i e2 heq
    rw [hread] at heq
    cases heq
  · rename_i text2 heq
    rw [hread] at heq
    injection heq with heq
    subst heq
    split
    · rename_i e2 heq2
      rw [htr] at heq2
      cases heq2
    · rename_i result2 heq2
      rw [htr] at heq2
      injection heq2 with heq2
      subst heq2
      split
      · rename_i u heq3
        rw [hw] at heq3
        cases heq3
      · rename_i e2 heq3
        rw [hw] at heq3
        injection heq3 with heq3
        subst heq3
        exact ⟨rfl, rfl, rfl⟩

/-- C7 witness: a one-file batch whose save always fails. -/
theorem write_failure_keeps_translated_witness :
    (batchStep badWriteOracles "Chinese" tsConst (start_batch_translation ["a.txt"])).statuses
        = (start_batch_translation ["a.txt"]).statuses.set
            (start_batch_translation ["a.txt"]).current_file_index ItemStatus.Translated ∧
    (batchStep badWriteOracles "Chinese" tsConst (start_batch_translation ["a.txt"])).reports
        = (start_batch_translation ["a.txt"]).reports
            ++ ["Failed to save translated file:\n" ++ "disk full"] ∧
    (batchStep badWriteOracles "Chinese" tsConst
        (start_batch_translation ["a.txt"])).current_file_index
        = (start_batch_translation ["a.txt"]).current_file_index + 1 :=
  write_failure_keeps_translated badWriteOracles "Chinese" tsConst
    (start_batch_translation ["a.txt"]) "text" "text" "disk full"
    (by decide) (by rfl) (by rfl) (by rfl)

end LyricsApp

namespace LyricsApp

theorem runSteps_succ_last (o : Oracles) (lang : String) (tsF : Nat → String) :
    ∀ (n : Nat) (s : BatchState),
      runSteps o lang tsF (n + 1) s
        = batchStep o lang tsF (runSteps o lang tsF n s) := by
  intro n
  induction n with
  | zero => intro s; rfl
  | succ m ih =>
    intro s
    rw [runSteps_succ, ih, ← runSteps_succ]

theorem batchStep_preserves_le (o : Oracles) (lang : String) (tsF : Nat → String)
    (s : BatchState) :
    (batchStep o lang tsF s).current_file_index ≤ (batchStep o lang tsF s).total_files := by
  by_cases hlt : s.current_file_index < s.total_files
  · obtain ⟨hc, -, -, htot, -⟩ := batchStep_item o lang tsF s hlt
    omega
  · have : batchStep o lang tsF s = batch_translation_finished s := by
      rw [batchStep, if_neg hlt]
    rw [this]
    exact Nat.le_refl 0

/-- C8 (amended): in every state reachable from batch initialization,
`cursor ≤ totalCount`; every step from a state with `cursor < totalCount`
increments the cursor by one and does not finish; the step from a state
with `cursor ≥ totalCount` transitions to Finished and resets both cursor
and totalCount to 0 (so that final step does not leave the cursor
unchanged nor increment it); and from an unfinished state the step
finishes exactly when `cursor = totalCount`. -/
theorem batch_cursor_behavior (o : Oracles) (lang : String) (tsF : Nat → String)
    (paths : List String) :
    (∀ n : Nat,
      (runSteps o lang tsF n (start_batch_translation paths)).current_file_index
        ≤ (runSteps o lang tsF n (start_batch_translation paths)).total_files) ∧
    (∀ s : BatchState, s.current_file_index < s.total_files →
      (batchStep o lang tsF s).current_file_index = s.current_file_index + 1 ∧
      (batchStep o lang tsF s).finished = s.finished) ∧
    (∀ s : BatchState, ¬ s.current_file_index < s.total_files →
      (batchStep o lang tsF s).finished = true ∧
      (batchStep o lang tsF s).current_file_index = 0 ∧
      (batchStep o lang tsF s).total_files = 0) ∧
    (∀ s : BatchState, s.finished = false → s.current_file_index ≤ s.total_files →
      ((batchStep o lang tsF s).finished = true ↔
        s.current_file_index = s.total_files)) := by
  have hfinish : ∀ s : BatchState, ¬ s.current_file_index < s.total_files →
      batchStep o lang tsF s = batch_translation_finished s := by
    intro s hge
    rw [batchStep, if_neg hge]
  refine ⟨?_, ?_, ?_, ?_⟩
  · intro n
    induction n with
    | zero => simp [runSteps, start_batch_translation]
    | succ m ihm =>
      rw [runSteps_succ_last]
      exact batchStep_preserves_le o lang tsF _
  · intro s hlt
    obtain ⟨hc, -, -, -, hfin⟩ := batchStep_item o lang tsF s hlt
    exact ⟨hc, hfin⟩
  · intro s hge
    rw [hfinish s hge]
    exact ⟨rfl, rfl, rfl⟩
  · intro s hnf hle
    by_cases hlt : s.current_file_index < s.total_files
    · obtain ⟨-, -, -, -, hfin⟩ := batchStep_item o lang tsF s hlt
      rw [hfin, hnf]
      constructor
      · intro hx
        cases hx
      · intro hx
        omega
    · rw [(hfinish s hlt)]
      constructor
      · intro _
        omega
      · intro _
        rfl

end LyricsApp

namespace LyricsApp

/-- C8 counterexample: on a one-file batch the finishing step takes the
cursor from 1 back to 0, which neither leaves it unchanged nor increments
it, refuting the claim that every step leaves the cursor unchanged or
increments it. -/
theorem batch_cursor_reset_counterexample :
    (batchStep okOracles "Chinese" tsConst (start_batch_translation ["a.txt"])).current_file_index
        = 1 ∧
    (batchStep okOracles "Chinese" tsConst
        (batchStep okOracles "Chinese" tsConst
          (start_batch_translation ["a.txt"]))).current_file_index = 0 ∧
    ¬ ((batchStep okOracles "Chinese" tsConst
          (batchStep okOracles "Chinese" tsConst
            (start_batch_translation ["a.txt"]))).current_file_index
          = (batchStep okOracles "Chinese" tsConst
              (start_batch_translation ["a.txt"])).current_file_index ∨
        (batchStep okOracles "Chinese" tsConst
            (batchStep okOracles "Chinese" tsConst
              (start_batch_translation ["a.txt"]))).current_file_index
          = (batchStep okOracles "Chinese" tsConst
              (start_batch_translation ["a.txt"])).current_file_index + 1) := by
  refine ⟨rfl, rfl, ?_⟩
  decide

/-- C8 witness: the amended theorem's step clauses applied at concrete
states. -/
theorem batch_cursor_behavior_witness :
    ((batchStep okOracles "Chinese" tsConst
        (start_batch_translation ["a.txt", "b.txt"])).current_file_index
      = (start_batch_translation ["a.txt", "b.txt"]).current_file_index + 1 ∧
    (batchStep okOracles "Chinese" tsConst
        (start_batch_translation ["a.txt", "b.txt"])).finished
      = (start_batch_translation ["a.txt", "b.txt"]).finished) ∧
    ((batchStep okOracles "Chinese" tsConst
        { file_paths := [], current_file_index := 3, total_files := 3, statuses := [],
          finished := false, reports := [] }).finished = true ↔ (3 : Nat) = 3) := by
  constructor
  · exact (batch_cursor_behavior okOracles "Chinese" tsConst ["a.txt", "b.txt"]).2.1
      (start_batch_translation ["a.txt", "b.txt"]) (by decide)
  · exact (batch_cursor_behavior okOracles "Chinese" tsConst ["a.txt", "b.txt"]).2.2.2
      { file_paths := [], current_file_index := 3, total_files := 3, statuses := [],
        finished := false, reports := [] } (by decide) (by decide)

/-- C1: the batch flow passes `os.path.basename(filepath)` — not the full
path — to `save_translated_file`, so the dirname it joins with is empty
and the derived file is a bare relative name resolved against the process
working directory, not the source file's directory `/music`.  The third
conjunct shows what the claimed behavior would have produced; the last two
show the step indeed writes to the relative name (the write oracle only
accepts that exact path and no failure is reported). -/
theorem batch_save_lands_in_cwd :
    savePath (pyBasename "/music/song.lrc") "Chinese" "20250101_000000"
        = "song_Chinese_20250101_000000.lrc" ∧
    pyDirname "/music/song.lrc" = "/music" ∧
    savePath "/music/song.lrc" "Chinese" "20250101_000000"
        = "/music/song_Chinese_20250101_000000.lrc" ∧
    (batchStep cwdWriteOracles "Chinese" tsConst
        (start_batch_translation ["/music/song.lrc"])).reports = [] ∧
    (batchStep cwdWriteOracles "Chinese" tsConst
        (start_batch_translation ["/music/song.lrc"])).statuses = [ItemStatus.Translated] := by
  refine ⟨by decide, by decide, by decide, rfl, rfl⟩

def emptyApp : AppState := { file_paths := [], input_text := "", output_text := "" }

/-- C2: opening exactly one file whose read raises leaves the pending
batch path list holding that single path (the clearing statement sits
inside the `try:` block), while a successful read does clear it.  A later
Translate click in that state runs the batch sequencer with
`totalCount = 1`. -/
theorem single_open_failure_keeps_batch_list :
    (open_files (fun _ => Except.error "No such file or directory") ["song.lrc"]
        emptyApp).file_paths = ["song.lrc"] ∧
    (open_files (fun _ => Except.ok "text") ["song.lrc"] emptyApp).file_paths = [] ∧
    (open_files (fun _ => Except.error "No such file or directory") ["song.lrc"]
        emptyApp).input_text = "" := by
  refine ⟨rfl, rfl, rfl⟩

end LyricsApp
